import Mathlib

/-!
# Family budget handlers (`src/main/index.js`)

A shallow embedding of the four IPC handlers `fetchFamilyMembers`,
`modifyFamilyMember`, `calculateBudgetRatio` and `addFamilyMember`.

* The three tables the SQL text touches (`family_members`,
  `family_members_job`, `expenses`) are lists of rows; every SQL statement is a
  pure function on the database value.
* `global.dbclient.query` may reject.  Whether the `k`-th query issued by one
  handler call rejects is read from `Env.fault k`; a rejected statement leaves
  the tables as they were (one statement, autocommitted).
* A handler is `async`: it either fulfils with a value (`Except.ok`) or rejects
  to the IPC dispatcher (`Except.error`).  `try`/`catch` is the match that turns
  an error of the body into the catch block's value.
* Draft fields are optional values: `none` is JavaScript `undefined`/`null`.
  Text fields are strings, `salary` is an integer, dates are calendar dates
  (a date string is never empty, hence always truthy); `id` is the integer key
  the update form always carries.
-/

namespace FamilyBudget

/-! ## Values -/

/-- Calendar date of a `DATE` column (and of a date string in a draft). -/
structure Date where
  year : Nat
  month : Nat
  day : Nat
deriving DecidableEq, Repr

/-- Chronological order `a <= b` on dates. -/
def Date.le (a b : Date) : Bool :=
  decide (a.year < b.year) ||
    (decide (a.year = b.year) &&
      (decide (a.month < b.month) || (decide (a.month = b.month) && decide (a.day ≤ b.day))))

/-- SQL `date_trunc('month', d)`: the first day of the month of `d`. -/
def dateTruncMonth (d : Date) : Date := ⟨d.year, d.month, 1⟩

/-- JavaScript truthiness of an optional string: `undefined`, `null` and `""` are falsy. -/
def truthy : Option String → Bool
  | some s => s != ""
  | none => false

/-- JavaScript `v || null` on an optional string. -/
def orNull (v : Option String) : Option String :=
  if truthy v then v else none

/-- JavaScript `v > 0` on an optional number (`undefined > 0` and `null > 0` are false). -/
def gtZero : Option Int → Bool
  | some n => decide (n > 0)
  | none => false

/-- JavaScript `v || 0` on an optional number: `0` and the absent value give `0`. -/
def orZero : Option Int → Int
  | some n => if n ≠ 0 then n else 0
  | none => 0

/-- JavaScript `v || null` on an optional date string (a date string is truthy). -/
def dateOrNull : Option Date → Option Date
  | some d => some d
  | none => none

/-! ## Tables -/

/-- Row of `family_members`. -/
structure FamilyMember where
  id : Nat
  full_name : Option String
  birth_date : Option Date
  email : Option String
  phone : Option String
  role : Option String
deriving DecidableEq, Repr

/-- Row of `family_members_job`. -/
structure FamilyMemberJob where
  family_member_id : Nat
  job_title : Option String
  employer : Option String
  salary : Int
  start_date : Option Date
deriving DecidableEq, Repr

/-- Row of `expenses`. -/
structure Expense where
  family_member_id : Nat
  amount : Int
  transaction_date : Date
deriving DecidableEq, Repr

/-- The database behind `global.dbclient`. -/
structure Db where
  family_members : List FamilyMember
  family_members_job : List FamilyMemberJob
  expenses : List Expense
deriving DecidableEq, Repr

/-- The `member` object a renderer passes to `addFamilyMember` / `modifyFamilyMember`. -/
structure MemberDraft where
  id : Nat
  full_name : Option String
  birth_date : Option Date
  email : Option String
  phone : Option String
  role : Option String
  job_title : Option String
  employer : Option String
  salary : Option Int
  start_date : Option Date
deriving DecidableEq, Repr

/-- What one handler call meets outside the tables. -/
structure Env where
  /-- Whether the `k`-th query issued by the call rejects. -/
  fault : Nat → Bool
  /-- SQL `CURRENT_DATE`. -/
  today : Date
  /-- The key `INSERT INTO family_members ... RETURNING id` generates. -/
  newId : Nat

/-- What a handler body can throw. -/
inductive JsError where
  | typeError
  | storageFault
deriving DecidableEq, Repr

/-! ## SQL statements -/

/-- Statement `UPDATE family_members SET full_name = $1, birth_date = $2, email = $3, phone = $4
WHERE id = $5` with the parameters of `modifyFamilyMember`. -/
def updateMemberQuery (m : MemberDraft) (db : Db) : Db :=
  { db with
    family_members := db.family_members.map fun r =>
      if r.id = m.id then
        { r with
          full_name := m.full_name
          birth_date := m.birth_date
          email := orNull m.email
          phone := orNull m.phone }
      else r }

/-- Query `SELECT COUNT(*) FROM family_members_job WHERE family_member_id = $1`. -/
def jobCheckQuery (id : Nat) (db : Db) : Nat :=
  (db.family_members_job.filter fun j => decide (j.family_member_id = id)).length

/-- Statement `UPDATE family_members_job SET job_title = $1, employer = $2, salary = $3,
start_date = $4 WHERE family_member_id = $5` with the parameters of `modifyFamilyMember`. -/
def updateJobQuery (m : MemberDraft) (db : Db) : Db :=
  { db with
    family_members_job := db.family_members_job.map fun j =>
      if j.family_member_id = m.id then
        { j with
          job_title := orNull m.job_title
          employer := orNull m.employer
          salary := orZero m.salary
          start_date := dateOrNull m.start_date }
      else j }

/-- Statement `INSERT INTO family_members_job (family_member_id, job_title, employer, salary,
start_date) VALUES ($1, $2, $3, $4, CURRENT_DATE)`. -/
def insertJobQuery (today : Date) (id : Nat) (jobTitle employer : Option String)
    (salary : Int) (db : Db) : Db :=
  { db with
    family_members_job :=
      db.family_members_job ++ [⟨id, jobTitle, employer, salary, some today⟩] }

/-- Statement `DELETE FROM family_members_job WHERE family_member_id = $1`. -/
def deleteJobQuery (id : Nat) (db : Db) : Db :=
  { db with
    family_members_job :=
      db.family_members_job.filter fun j => !decide (j.family_member_id = id) }

/-- Statement `INSERT INTO family_members (full_name, birth_date, email, phone, role)
VALUES ($1, $2, $3, $4, $5) RETURNING id`, the generated key being `newId`. -/
def insertMemberQuery (newId : Nat) (fullName : Option String) (birthDate : Option Date)
    (email phone role : Option String) (db : Db) : Db :=
  { db with
    family_members :=
      db.family_members ++ [⟨newId, fullName, birthDate, email, phone, role⟩] }

/-! ## `modifyFamilyMember` -/

/-- The `{ success, message }` object `modifyFamilyMember` returns. -/
structure ModifyResult where
  success : Bool
  message : String
deriving DecidableEq, Repr

/-- The object returned at the end of the `try` block. -/
def modifyOk : ModifyResult :=
  ⟨true, "Данные члена семьи успешно обновлены"⟩

/-- The object returned by the `catch` block. -/
def modifyFailed : ModifyResult :=
  ⟨false, "Произошла ошибка при обновлении данных"⟩

/-- The `try` block of `modifyFamilyMember`: the tables when it ends or throws, and
its value or the error thrown. -/
def modifyTry (env : Env) (db : Db) (member : Option MemberDraft) :
    Db × Except JsError ModifyResult :=
  match member with
  | none => (db, .error .typeError)
  | some m =>
    if env.fault 0 then (db, .error .storageFault) else
    let db1 := updateMemberQuery m db
    if env.fault 1 then (db1, .error .storageFault) else
    let count := jobCheckQuery m.id db1
    if truthy m.job_title || truthy m.employer || gtZero m.salary then
      if count > 0 then
        if env.fault 2 then (db1, .error .storageFault) else
        (updateJobQuery m db1, .ok modifyOk)
      else
        if env.fault 2 then (db1, .error .storageFault) else
        (insertJobQuery env.today m.id (orNull m.job_title) (orNull m.employer)
          (orZero m.salary) db1, .ok modifyOk)
    else
      if env.fault 2 then (db1, .error .storageFault) else
      (deleteJobQuery m.id db1, .ok modifyOk)

/-- Handler `modifyFamilyMember(_, member)`: `try` block, then `catch`. -/
def modifyFamilyMember (env : Env) (db : Db) (member : Option MemberDraft) :
    Db × Except JsError ModifyResult :=
  match modifyTry env db member with
  | (db1, .ok r) => (db1, .ok r)
  | (db1, .error _) => (db1, .ok modifyFailed)

/-! ## `addFamilyMember` -/

/-- The dialog `addFamilyMember` shows before it returns `undefined`. -/
inductive Notification where
  | messageBox
  | errorBox
deriving DecidableEq, Repr

/-- The `try` block of `addFamilyMember`, entered with the destructured draft. -/
def addTry (env : Env) (db : Db) (m : MemberDraft) : Db × Except JsError Notification :=
  if env.fault 0 then (db, .error .storageFault) else
  let db1 := insertMemberQuery env.newId m.full_name m.birth_date (orNull m.email)
    (orNull m.phone) (orNull m.role) db
  let familyMemberId := env.newId
  if truthy m.job_title || truthy m.employer || gtZero m.salary then
    if env.fault 1 then (db1, .error .storageFault) else
    (insertJobQuery env.today familyMemberId (orNull m.job_title) (orNull m.employer)
      (orZero m.salary) db1, .ok .messageBox)
  else (db1, .ok .messageBox)

/-- Handler `addFamilyMember(_, member)`: the destructuring of `member` stands before
the `try`, so a missing draft throws to the caller; then `try` block and `catch`. -/
def addFamilyMember (env : Env) (db : Db) (member : Option MemberDraft) :
    Db × Except JsError Notification :=
  match member with
  | none => (db, .error .typeError)
  | some m =>
    match addTry env db m with
    | (db1, .ok n) => (db1, .ok n)
    | (db1, .error _) => (db1, .ok .errorBox)

/-! ## `calculateBudgetRatio` -/

/-- Position of `a` at or before `b` under `ORDER BY start_date DESC`
(PostgreSQL puts `NULL` first in descending order). -/
def startDateDesc (a b : FamilyMemberJob) : Prop :=
  match a.start_date, b.start_date with
  | none, _ => True
  | some _, none => False
  | some x, some y => y.le x = true

instance : DecidableRel startDateDesc := fun a b => by
  unfold startDateDesc
  cases a.start_date <;> cases b.start_date <;> infer_instance

/-- Query `SELECT salary FROM family_members_job WHERE family_member_id = $1
ORDER BY start_date DESC LIMIT 1`: the `salary` column of the result rows. -/
def incomeQuery (id : Option Nat) (db : Db) : List Int :=
  (((db.family_members_job.filter fun j => decide (some j.family_member_id = id)).insertionSort
    startDateDesc).take 1).map fun j => j.salary

/-- Query `SELECT SUM(amount) AS total_expense FROM expenses WHERE family_member_id = $1
AND transaction_date >= date_trunc('month', CURRENT_DATE)`: `total_expense` of the one
result row, `NULL` when no expense row qualifies. -/
def expenseQuery (today : Date) (id : Option Nat) (db : Db) : Option Int :=
  let rows := db.expenses.filter fun e =>
    decide (some e.family_member_id = id) && (dateTruncMonth today).le e.transaction_date
  if rows.isEmpty then none else some (rows.map fun e => e.amount).sum

/-- Label returned when `income > expense`. -/
def surplus : String := "Профицит бюджета"

/-- Label returned otherwise. -/
def deficit : String := "Дефицит бюджета"

/-- Label returned by the `catch` block. -/
def calcError : String := "Ошибка расчета"

/-- The `try` block of `calculateBudgetRatio`. -/
def calculateTry (env : Env) (db : Db) (familyMemberId : Option Nat) : Except JsError String :=
  if env.fault 0 then .error .storageFault else
  let incomeRows := incomeQuery familyMemberId db
  if env.fault 1 then .error .storageFault else
  let totalExpense := expenseQuery env.today familyMemberId db
  let income := orZero incomeRows.head?
  let expense := orZero totalExpense
  .ok (if income > expense then surplus else deficit)

/-- Handler `calculateBudgetRatio(_, familyMemberId)`: `try` block, then `catch`. -/
def calculateBudgetRatio (env : Env) (db : Db) (familyMemberId : Option Nat) :
    Except JsError String :=
  match calculateTry env db familyMemberId with
  | .ok label => .ok label
  | .error _ => .ok calcError

/-! ## `fetchFamilyMembers` -/

/-- Row of the `LEFT JOIN` result of `fetchFamilyMembers`. -/
structure MemberRow where
  id : Nat
  full_name : Option String
  birth_date : Option Date
  email : Option String
  phone : Option String
  role : Option String
  job_title : Option String
  employer : Option String
  salary : Int
  start_date : Option Date
deriving DecidableEq, Repr

/-- The rows `family_members fm LEFT JOIN family_members_job fj ON fm.id =
fj.family_member_id` yields for one member row, with `COALESCE(fj.salary, 0)`. -/
def joinJobs (db : Db) (fm : FamilyMember) : List MemberRow :=
  match db.family_members_job.filter fun j => decide (fm.id = j.family_member_id) with
  | [] =>
    [⟨fm.id, fm.full_name, fm.birth_date, fm.email, fm.phone, fm.role, none, none, 0, none⟩]
  | js =>
    js.map fun j =>
      ⟨fm.id, fm.full_name, fm.birth_date, fm.email, fm.phone, fm.role,
        j.job_title, j.employer, j.salary, j.start_date⟩

/-- The `SELECT ... LEFT JOIN ... ORDER BY fm.id` of `fetchFamilyMembers`. -/
def fetchQuery (db : Db) : List MemberRow :=
  ((db.family_members.insertionSort fun a b => a.id ≤ b.id).map (joinJobs db)).flatten

/-- The `try` block of `fetchFamilyMembers`. -/
def fetchTry (env : Env) (db : Db) : Except JsError (List MemberRow) :=
  if env.fault 0 then .error .storageFault else .ok (fetchQuery db)

/-- Handler `fetchFamilyMembers()`: `try` block, then `catch` returning `[]`. -/
def fetchFamilyMembers (env : Env) (db : Db) : Except JsError (List MemberRow) :=
  match fetchTry env db with
  | .ok rows => .ok rows
  | .error _ => .ok []

/-! ## Vocabulary of the specification -/

/-- No query of the call rejects. -/
def NoFault (env : Env) : Prop := ∀ k, env.fault k = false

/-- Employment signal of a draft: a non-empty `job_title`, a non-empty `employer`
or a positive `salary`. -/
def JobSignal (m : MemberDraft) : Prop :=
  (∃ s, m.job_title = some s ∧ s ≠ "") ∨ (∃ s, m.employer = some s ∧ s ≠ "") ∨
    (∃ n, m.salary = some n ∧ 0 < n)

/-- The employment records of member `id`. -/
def jobsOf (db : Db) (id : Nat) : List FamilyMemberJob :=
  db.family_members_job.filter fun j => decide (j.family_member_id = id)

/-- A text field as the tables keep it: the empty string counts as absent. -/
def storedText (v : Option String) : Option String :=
  if v = some "" then none else v

/-- No employment signal, in the words of the specification: `job_title` and
`employer` empty or absent, `salary` absent or at most `0`. -/
def NoJobSignal (m : MemberDraft) : Prop :=
  (m.job_title = none ∨ m.job_title = some "") ∧ (m.employer = none ∨ m.employer = some "") ∧
    ∀ n, m.salary = some n → n ≤ 0

/-- Every family member has at most one employment record. -/
def OneJobPerMember (db : Db) : Prop :=
  ∀ fm ∈ db.family_members, (jobsOf db fm.id).length ≤ 1

/-- The generated key is fresh: no member row carries it and no employment record
refers to it. -/
def FreshId (db : Db) (id : Nat) : Prop :=
  (∀ fm ∈ db.family_members, fm.id ≠ id) ∧ ∀ j ∈ db.family_members_job, j.family_member_id ≠ id

/-- Record `j` is a most recent employment record of member `id`: it belongs to the
member and no record of the member is placed before it by `ORDER BY start_date DESC`. -/
def IsLatestJob (db : Db) (id : Nat) (j : FamilyMemberJob) : Prop :=
  j ∈ jobsOf db id ∧ ∀ k ∈ jobsOf db id, startDateDesc j k

/-- Sum of the member's expense amounts dated on or after `since`. -/
def expenseSince (since : Date) (id : Nat) (db : Db) : Int :=
  ((db.expenses.filter fun e =>
    decide (e.family_member_id = id) && since.le e.transaction_date).map fun e => e.amount).sum

/-- Sum of the member's expense amounts dated in the calendar month of `today`. -/
def expenseInMonth (today : Date) (id : Nat) (db : Db) : Int :=
  ((db.expenses.filter fun e =>
    decide (e.family_member_id = id) && decide (e.transaction_date.year = today.year) &&
      decide (e.transaction_date.month = today.month)).map fun e => e.amount).sum

/-! ## Sample inputs -/

/-- An environment in which every query succeeds, on 15 June 2024. -/
def quietEnv : Env := ⟨fun _ => false, ⟨2024, 6, 15⟩, 2⟩

/-- One member, Anna, without employment record or expenses. -/
def annaDb : Db := ⟨[⟨1, some "Anna", some ⟨1990, 1, 2⟩, none, none, some "mother"⟩], [], []⟩

/-- A draft for member 1 with a job title and a salary. -/
def engineerDraft : MemberDraft :=
  ⟨1, some "Anna", some ⟨1990, 1, 2⟩, some "a@x.org", none, some "boss", some "Engineer", none,
    some 1000, some ⟨2020, 3, 1⟩⟩

/-- A draft for member 1 without employment signal: scenario C of the specification. -/
def idleDraft : MemberDraft :=
  ⟨1, some "Anna", some ⟨1990, 1, 2⟩, none, none, none, some "", none, some 0, none⟩

/-- Anna renamed, nothing else changed. -/
def renameDraft : MemberDraft :=
  ⟨1, some "Anya", some ⟨1990, 1, 2⟩, none, none, none, none, none, none, none⟩

/-- An environment whose second query (index 1) rejects, every other succeeds. -/
def secondQueryFails : Env := ⟨fun k => decide (k = 1), ⟨2024, 6, 15⟩, 2⟩

/-- Anna's employment record: salary 1000 since 10 January 2024. -/
def annaJob : FamilyMemberJob := ⟨1, some "Engineer", none, 1000, some ⟨2024, 1, 10⟩⟩

/-- Anna with her employment record and one expense of 1200 dated 3 July 2024, the
month after the one of `quietEnv.today`. -/
def julyExpenseDb : Db :=
  ⟨[⟨1, some "Anna", some ⟨1990, 1, 2⟩, none, none, some "mother"⟩], [annaJob],
    [⟨1, 1200, ⟨2024, 7, 3⟩⟩]⟩

/-- Anna with her employment record and one expense of 1200 dated 5 June 2024:
scenario D of the specification. -/
def juneExpenseDb : Db :=
  ⟨[⟨1, some "Anna", some ⟨1990, 1, 2⟩, none, none, some "mother"⟩], [annaJob],
    [⟨1, 1200, ⟨2024, 6, 5⟩⟩]⟩

/-- A draft with an employment signal for id 2, which no member row of `annaDb` bears. -/
def ghostDraft : MemberDraft :=
  ⟨2, some "Boris", none, none, none, none, some "Driver", none, some 500, none⟩

/-- Anna's database after `modifyFamilyMember` has run `ghostDraft` on it: the member
update matched no row and the job insert stored a record for id 2. -/
def orphanDb : Db :=
  ⟨[⟨1, some "Anna", some ⟨1990, 1, 2⟩, none, none, some "mother"⟩],
    [⟨2, some "Driver", none, 500, some ⟨2024, 6, 15⟩⟩], []⟩

/-! ## Basic facts -/

theorem quietEnv_noFault : NoFault quietEnv := fun _ => rfl

theorem engineerDraft_signal : JobSignal engineerDraft :=
  Or.inl ⟨"Engineer", rfl, by decide⟩

theorem idleDraft_noSignal : NoJobSignal idleDraft :=
  ⟨Or.inr rfl, Or.inl rfl, fun n h => by cases h; exact le_refl _⟩

theorem noJobSignal_iff (m : MemberDraft) : NoJobSignal m ↔ ¬ JobSignal m := by
  unfold NoJobSignal JobSignal
  constructor
  · rintro ⟨hj, he, hs⟩ (⟨s, h, hne⟩ | ⟨s, h, hne⟩ | ⟨n, h, hn⟩)
    · rcases hj with hj | hj <;> rw [hj] at h <;> cases h
      exact hne rfl
    · rcases he with he | he <;> rw [he] at h <;> cases h
      exact hne rfl
    · exact absurd (hs n h) (not_le.mpr hn)
  · intro h
    refine ⟨?_, ?_, ?_⟩
    · cases hj : m.job_title with
      | none => exact Or.inl rfl
      | some s =>
        by_cases hs : s = ""
        · exact Or.inr (by rw [hs])
        · exact absurd (Or.inl ⟨s, hj, hs⟩) h
    · cases he : m.employer with
      | none => exact Or.inl rfl
      | some s =>
        by_cases hs : s = ""
        · exact Or.inr (by rw [hs])
        · exact absurd (Or.inr (Or.inl ⟨s, he, hs⟩)) h
    · intro n hn
      by_contra hlt
      exact h (Or.inr (Or.inr ⟨n, hn, not_le.mp hlt⟩))


theorem truthy_iff (v : Option String) : truthy v = true ↔ ∃ s, v = some s ∧ s ≠ "" := by
  cases v with
  | none => simp [truthy]
  | some s => simp [truthy]

theorem gtZero_iff (v : Option Int) : gtZero v = true ↔ ∃ n, v = some n ∧ 0 < n := by
  cases v with
  | none => simp [gtZero]
  | some n => simp [gtZero]

theorem jobSignal_iff (m : MemberDraft) :
    (truthy m.job_title || truthy m.employer || gtZero m.salary) = true ↔ JobSignal m := by
  simp only [Bool.or_eq_true, truthy_iff, gtZero_iff, JobSignal, or_assoc]

theorem orNull_eq (v : Option String) : orNull v = storedText v := by
  cases v with
  | none => simp [orNull, storedText, truthy]
  | some s =>
    by_cases h : s = ""
    · simp [orNull, storedText, truthy, h]
    · simp [orNull, storedText, truthy, h]

theorem orZero_eq (v : Option Int) : orZero v = v.getD 0 := by
  cases v with
  | none => rfl
  | some n =>
    by_cases h : n = 0
    · simp [orZero, h]
    · simp [orZero, h]

theorem dateOrNull_eq (v : Option Date) : dateOrNull v = v := by
  cases v <;> rfl

theorem jobCheckQuery_updateMember (m : MemberDraft) (db : Db) (id : Nat) :
    jobCheckQuery id (updateMemberQuery m db) = jobCheckQuery id db := rfl

theorem jobCheckQuery_pos {db : Db} {id : Nat} (h : 0 < jobCheckQuery id db) :
    ∃ j ∈ db.family_members_job, j.family_member_id = id := by
  unfold jobCheckQuery at h
  obtain ⟨j, hj⟩ := List.exists_mem_of_length_pos h
  rw [List.mem_filter] at hj
  exact ⟨j, hj.1, by simpa using hj.2⟩

theorem jobCheckQuery_zero {db : Db} {id : Nat} (h : jobCheckQuery id db = 0) :
    ∀ j ∈ db.family_members_job, j.family_member_id ≠ id := by
  intro j hj hid
  unfold jobCheckQuery at h
  have hmem : j ∈ db.family_members_job.filter fun j => decide (j.family_member_id = id) := by
    rw [List.mem_filter]
    exact ⟨hj, by simpa using hid⟩
  rw [List.length_eq_zero] at h
  rw [h] at hmem
  exact absurd hmem (List.not_mem_nil j)

/-- With no fault, a job signal and an existing record, `modifyFamilyMember` runs the
member update and the job update. -/
theorem modify_update_path (env : Env) (db : Db) (m : MemberDraft)
    (h0 : env.fault 0 = false) (h1 : env.fault 1 = false) (h2 : env.fault 2 = false)
    (hsig : JobSignal m) (hcount : 0 < jobCheckQuery m.id db) :
    modifyFamilyMember env db (some m) =
      (updateJobQuery m (updateMemberQuery m db), .ok modifyOk) := by
  have hs := (jobSignal_iff m).mpr hsig
  simp [modifyFamilyMember, modifyTry, h0, h1, h2, hs, jobCheckQuery_updateMember,
    hcount]

/-- With no fault, a job signal and no record, `modifyFamilyMember` runs the member
update and the job insert. -/
theorem modify_insert_path (env : Env) (db : Db) (m : MemberDraft)
    (h0 : env.fault 0 = false) (h1 : env.fault 1 = false) (h2 : env.fault 2 = false)
    (hsig : JobSignal m) (hcount : jobCheckQuery m.id db = 0) :
    modifyFamilyMember env db (some m) =
      (insertJobQuery env.today m.id (orNull m.job_title) (orNull m.employer)
        (orZero m.salary) (updateMemberQuery m db), .ok modifyOk) := by
  have hs := (jobSignal_iff m).mpr hsig
  simp [modifyFamilyMember, modifyTry, h0, h1, h2, hs, jobCheckQuery_updateMember,
    hcount]

/-- With no fault and no job signal, `modifyFamilyMember` runs the member update and
the job delete. -/
theorem modify_delete_path (env : Env) (db : Db) (m : MemberDraft)
    (h0 : env.fault 0 = false) (h1 : env.fault 1 = false) (h2 : env.fault 2 = false)
    (hsig : ¬ JobSignal m) :
    modifyFamilyMember env db (some m) =
      (deleteJobQuery m.id (updateMemberQuery m db), .ok modifyOk) := by
  have hs : (truthy m.job_title || truthy m.employer || gtZero m.salary) = false := by
    rw [← Bool.not_eq_true, jobSignal_iff]
    exact hsig
  simp [modifyFamilyMember, modifyTry, h0, h1, h2, hs]

/-- With no fault and a job signal, `addFamilyMember` inserts the member and the job. -/
theorem add_signal_path (env : Env) (db : Db) (m : MemberDraft)
    (h0 : env.fault 0 = false) (h1 : env.fault 1 = false) (hsig : JobSignal m) :
    addFamilyMember env db (some m) =
      (insertJobQuery env.today env.newId (orNull m.job_title) (orNull m.employer)
        (orZero m.salary)
        (insertMemberQuery env.newId m.full_name m.birth_date (orNull m.email)
          (orNull m.phone) (orNull m.role) db), .ok .messageBox) := by
  have hs := (jobSignal_iff m).mpr hsig
  simp [addFamilyMember, addTry, h0, h1, hs]

/-- Without a job signal, `addFamilyMember` only inserts the member, whatever the
second query would do. -/
theorem add_plain_path (env : Env) (db : Db) (m : MemberDraft) (hok : env.fault 0 = false)
    (hsig : ¬ JobSignal m) :
    addFamilyMember env db (some m) =
      (insertMemberQuery env.newId m.full_name m.birth_date (orNull m.email)
        (orNull m.phone) (orNull m.role) db, .ok .messageBox) := by
  have hs : (truthy m.job_title || truthy m.employer || gtZero m.salary) = false := by
    rw [← Bool.not_eq_true, jobSignal_iff]
    exact hsig
  simp [addFamilyMember, addTry, hok, hs]

/-! ## Employment record after a mutation -/

/-- C1. When every statement succeeds and the draft has a non-empty job_title, a
non-empty employer or a positive salary: after modifyFamilyMember an employment record
for draft.id exists and every record of draft.id carries the draft's job_title, employer
and salary; after addFamilyMember the employment table is the old one followed by one
record for the generated id with the draft's job_title, employer and salary (an empty or
absent text stored as null, an absent salary as 0). -/
theorem job_record_holds_draft_values (env : Env) (db : Db) (m : MemberDraft)
    (hok : NoFault env) (hsig : JobSignal m) :
    ((∃ j ∈ (modifyFamilyMember env db (some m)).1.family_members_job,
        j.family_member_id = m.id) ∧
      ∀ j ∈ (modifyFamilyMember env db (some m)).1.family_members_job,
        j.family_member_id = m.id →
          j.job_title = storedText m.job_title ∧ j.employer = storedText m.employer ∧
            j.salary = m.salary.getD 0) ∧
    (addFamilyMember env db (some m)).1.family_members_job =
      db.family_members_job ++
        [⟨env.newId, storedText m.job_title, storedText m.employer, m.salary.getD 0,
          some env.today⟩] := by
  constructor
  · by_cases hcount : 0 < jobCheckQuery m.id db
    · rw [modify_update_path env db m (hok 0) (hok 1) (hok 2) hsig hcount]
      obtain ⟨j0, hj0, hid0⟩ := jobCheckQuery_pos hcount
      constructor
      · refine ⟨_, List.mem_map_of_mem _ hj0, ?_⟩
        simp [hid0]
      · intro j hj hid
        simp only [updateJobQuery, updateMemberQuery, List.mem_map] at hj
        obtain ⟨a, _, rfl⟩ := hj
        by_cases ha : a.family_member_id = m.id
        · simp [ha, orNull_eq, orZero_eq]
        · simp [ha] at hid
    · have hzero : jobCheckQuery m.id db = 0 := Nat.eq_zero_of_not_pos hcount
      rw [modify_insert_path env db m (hok 0) (hok 1) (hok 2) hsig hzero]
      constructor
      · exact ⟨_, List.mem_append_right _ (List.mem_singleton_self _), rfl⟩
      · intro j hj hid
        simp only [insertJobQuery, updateMemberQuery, List.mem_append,
          List.mem_singleton] at hj
        rcases hj with hj | rfl
        · exact absurd hid (jobCheckQuery_zero hzero j hj)
        · simp [orNull_eq, orZero_eq]
  · rw [add_signal_path env db m (hok 0) (hok 1) hsig]
    simp [insertJobQuery, insertMemberQuery, orNull_eq, orZero_eq]

/-- Witness of C1: Anna gets the title Engineer and the salary 1000. -/
theorem job_record_holds_draft_values_witness :
    NoFault quietEnv ∧ JobSignal engineerDraft ∧
      ∃ j ∈ (modifyFamilyMember quietEnv annaDb (some engineerDraft)).1.family_members_job,
        j.family_member_id = 1 :=
  ⟨quietEnv_noFault, engineerDraft_signal,
    (job_record_holds_draft_values quietEnv annaDb engineerDraft quietEnv_noFault
      engineerDraft_signal).1.1⟩

/-- The member update is idempotent. -/
theorem updateMemberQuery_idem (m : MemberDraft) (db : Db) :
    updateMemberQuery m (updateMemberQuery m db) = updateMemberQuery m db := by
  simp only [updateMemberQuery, List.map_map]
  congr 1
  apply List.map_congr_left
  intro r _
  by_cases h : r.id = m.id <;> simp [h]

/-- The job delete leaves no record of the member. -/
theorem jobsOf_deleteJobQuery (id : Nat) (db : Db) : jobsOf (deleteJobQuery id db) id = [] := by
  simp only [jobsOf, deleteJobQuery, List.filter_filter]
  rw [List.filter_eq_nil_iff]
  intro j _
  by_cases h : j.family_member_id = id <;> simp [h]

/-- C2. When every statement succeeds and the draft has no employment signal (empty or
absent job_title and employer, salary absent or at most 0): modifyFamilyMember reports
success and leaves no employment record for draft.id, whatever was stored before, and a
second modifyFamilyMember with the same draft reports success again and returns the
database of the first call unchanged. -/
theorem no_signal_update_removes_record (env env2 : Env) (db : Db) (m : MemberDraft)
    (hok : NoFault env) (hok2 : NoFault env2) (hno : NoJobSignal m) :
    (modifyFamilyMember env db (some m)).2 = .ok modifyOk ∧ modifyOk.success = true ∧
      jobsOf (modifyFamilyMember env db (some m)).1 m.id = [] ∧
      modifyFamilyMember env2 (modifyFamilyMember env db (some m)).1 (some m) =
        ((modifyFamilyMember env db (some m)).1, .ok modifyOk) := by
  have hsig := (noJobSignal_iff m).mp hno
  rw [modify_delete_path env db m (hok 0) (hok 1) (hok 2) hsig]
  refine ⟨rfl, rfl, jobsOf_deleteJobQuery _ _, ?_⟩
  rw [modify_delete_path env2 _ m (hok2 0) (hok2 1) (hok2 2) hsig]
  congr 1
  have hcomm : updateMemberQuery m (deleteJobQuery m.id (updateMemberQuery m db)) =
      deleteJobQuery m.id (updateMemberQuery m (updateMemberQuery m db)) := rfl
  rw [hcomm, updateMemberQuery_idem]
  simp [deleteJobQuery, List.filter_filter]

/-- Witness of C2: the idle draft on Anna's database. -/
theorem no_signal_update_removes_record_witness :
    NoFault quietEnv ∧ NoJobSignal idleDraft ∧
      jobsOf (modifyFamilyMember quietEnv annaDb (some idleDraft)).1 1 = [] :=
  ⟨quietEnv_noFault, idleDraft_noSignal,
    (no_signal_update_removes_record quietEnv quietEnv annaDb idleDraft quietEnv_noFault
      quietEnv_noFault idleDraft_noSignal).2.2.1⟩

/-- A successful `modifyFamilyMember` means none of its three statements rejected. -/
theorem modify_success_faults (env : Env) (db : Db) (m : MemberDraft)
    (h : (modifyFamilyMember env db (some m)).2 = .ok modifyOk) :
    env.fault 0 = false ∧ env.fault 1 = false ∧ env.fault 2 = false := by
  cases h0 : env.fault 0
  · cases h1 : env.fault 1
    · cases h2 : env.fault 2
      · exact ⟨rfl, rfl, rfl⟩
      · exfalso
        revert h
        simp only [modifyFamilyMember, modifyTry, h0, h1, h2]
        split_ifs <;> simp [modifyOk, modifyFailed]
    · exfalso
      revert h
      simp [modifyFamilyMember, modifyTry, h0, h1, modifyOk, modifyFailed]
  · exfalso
    revert h
    simp [modifyFamilyMember, modifyTry, h0, modifyOk, modifyFailed]

/-- Whatever path a successful `modifyFamilyMember` takes, the member table is the old
one after the member update. -/
theorem modify_success_members (env : Env) (db : Db) (m : MemberDraft)
    (h : (modifyFamilyMember env db (some m)).2 = .ok modifyOk) :
    (modifyFamilyMember env db (some m)).1.family_members =
      (updateMemberQuery m db).family_members := by
  obtain ⟨h0, h1, h2⟩ := modify_success_faults env db m h
  by_cases hsig : JobSignal m
  · by_cases hcount : 0 < jobCheckQuery m.id db
    · rw [modify_update_path env db m h0 h1 h2 hsig hcount]; rfl
    · rw [modify_insert_path env db m h0 h1 h2 hsig (Nat.eq_zero_of_not_pos hcount)]; rfl
  · rw [modify_delete_path env db m h0 h1 h2 hsig]; rfl

/-- C9. A successful modifyFamilyMember gives the member row with id = draft.id the
draft's full_name, birth_date, email and phone (an empty or absent email or phone stored
as null), keeps that row's id and role, and keeps every row with another id as it was,
whatever role the draft carries. -/
theorem update_overwrites_four_columns (env : Env) (db : Db) (m : MemberDraft)
    (h : (modifyFamilyMember env db (some m)).2 = .ok modifyOk) :
    (modifyFamilyMember env db (some m)).1.family_members =
      db.family_members.map fun r =>
        if r.id = m.id then
          ⟨r.id, m.full_name, m.birth_date, storedText m.email, storedText m.phone, r.role⟩
        else r := by
  rw [modify_success_members env db m h]
  simp only [updateMemberQuery, orNull_eq]

/-- Witness of C9: the engineer draft carries the role boss, Anna stays mother. -/
theorem update_overwrites_four_columns_witness :
    (modifyFamilyMember quietEnv annaDb (some engineerDraft)).2 = .ok modifyOk ∧
      (modifyFamilyMember quietEnv annaDb (some engineerDraft)).1.family_members =
        [⟨1, some "Anna", some ⟨1990, 1, 2⟩, some "a@x.org", none, some "mother"⟩] :=
  ⟨rfl, (update_overwrites_four_columns quietEnv annaDb engineerDraft rfl).trans (by decide)⟩

/-- C10. For a draft without employment signal and a member insert that succeeds,
addFamilyMember appends exactly one member row (full_name and birth_date as given, an
empty or absent email, phone or role stored as null) under the generated id, shows the
success message, and leaves the employment records and the expenses as they were. -/
theorem add_without_signal_creates_no_record (env : Env) (db : Db) (m : MemberDraft)
    (h0 : env.fault 0 = false) (hno : NoJobSignal m) :
    (addFamilyMember env db (some m)).1.family_members =
        db.family_members ++
          [⟨env.newId, m.full_name, m.birth_date, storedText m.email, storedText m.phone,
            storedText m.role⟩] ∧
      (addFamilyMember env db (some m)).1.family_members_job = db.family_members_job ∧
      (addFamilyMember env db (some m)).1.expenses = db.expenses ∧
      (addFamilyMember env db (some m)).2 = .ok .messageBox := by
  rw [add_plain_path env db m h0 ((noJobSignal_iff m).mp hno)]
  simp [insertMemberQuery, orNull_eq]

/-- Witness of C10: scenario A, a draft with salary 0 and no title. -/
theorem add_without_signal_creates_no_record_witness :
    quietEnv.fault 0 = false ∧ NoJobSignal idleDraft ∧
      (addFamilyMember quietEnv annaDb (some idleDraft)).1.family_members_job = [] :=
  ⟨rfl, idleDraft_noSignal,
    (add_without_signal_creates_no_record quietEnv annaDb idleDraft rfl
      idleDraft_noSignal).2.1⟩

/-- C8. For a draft with employment signal and a successful modifyFamilyMember: when
draft.id has no employment record, the employment table becomes the old one followed by
exactly one record for draft.id whose start_date is the current date, whatever
start_date the draft carries; when draft.id has a record, the table keeps its length,
every record of draft.id gets the draft's start_date (null when the draft has none) and
the records of other members stay as they were. -/
theorem insert_uses_current_date (env : Env) (db : Db) (m : MemberDraft)
    (hsig : JobSignal m) (h : (modifyFamilyMember env db (some m)).2 = .ok modifyOk) :
    (jobsOf db m.id = [] →
      (modifyFamilyMember env db (some m)).1.family_members_job =
        db.family_members_job ++
          [⟨m.id, storedText m.job_title, storedText m.employer, m.salary.getD 0,
            some env.today⟩]) ∧
    (jobsOf db m.id ≠ [] →
      (modifyFamilyMember env db (some m)).1.family_members_job.length =
          db.family_members_job.length ∧
        (∀ j ∈ jobsOf (modifyFamilyMember env db (some m)).1 m.id,
          j.start_date = m.start_date) ∧
        jobsOf (modifyFamilyMember env db (some m)).1 m.id ≠ [] ∧
        ∀ id, id ≠ m.id → jobsOf (modifyFamilyMember env db (some m)).1 id = jobsOf db id) := by
  obtain ⟨h0, h1, h2⟩ := modify_success_faults env db m h
  constructor
  · intro hnone
    have hzero : jobCheckQuery m.id db = 0 := by
      show (jobsOf db m.id).length = 0
      rw [hnone]; rfl
    rw [modify_insert_path env db m h0 h1 h2 hsig hzero]
    simp [insertJobQuery, updateMemberQuery, orNull_eq, orZero_eq]
  · intro hsome
    have hpos : 0 < jobCheckQuery m.id db := by
      show 0 < (jobsOf db m.id).length
      exact List.length_pos.mpr hsome
    rw [modify_update_path env db m h0 h1 h2 hsig hpos]
    obtain ⟨j0, hj0, hid0⟩ := jobCheckQuery_pos hpos
    refine ⟨by simp [updateJobQuery, updateMemberQuery], ?_, ?_, ?_⟩
    · intro j hj
      simp only [jobsOf, updateJobQuery, updateMemberQuery, List.mem_filter,
        List.mem_map] at hj
      obtain ⟨⟨a, _, rfl⟩, hid⟩ := hj
      by_cases ha : a.family_member_id = m.id
      · simp [ha, dateOrNull_eq]
      · simp [ha] at hid
    · apply List.ne_nil_of_mem (a := (⟨j0.family_member_id, orNull m.job_title,
        orNull m.employer, orZero m.salary, dateOrNull m.start_date⟩ : FamilyMemberJob))
      simp only [jobsOf, updateJobQuery, updateMemberQuery, List.mem_filter, List.mem_map]
      refine ⟨⟨j0, hj0, by simp [hid0]⟩, by simp [hid0]⟩
    · intro id hid
      simp only [jobsOf, updateJobQuery, updateMemberQuery, List.filter_map]
      have hfilter : List.filter ((fun j : FamilyMemberJob => decide (j.family_member_id = id)) ∘
          fun j => if j.family_member_id = m.id then
            ({ j with
                job_title := orNull m.job_title
                employer := orNull m.employer
                salary := orZero m.salary
                start_date := dateOrNull m.start_date } : FamilyMemberJob)
          else j) db.family_members_job =
          List.filter (fun j => decide (j.family_member_id = id)) db.family_members_job := by
        apply List.filter_congr
        intro j _
        by_cases hj : j.family_member_id = m.id <;> simp [hj]
      rw [hfilter]
      conv_rhs => rw [← List.map_id (List.filter _ db.family_members_job)]
      apply List.map_congr_left
      intro j hj
      rw [List.mem_filter] at hj
      have hne : j.family_member_id ≠ m.id := by
        intro hc
        have := hj.2
        simp at this
        exact hid (this ▸ hc)
      simp [hne]

/-- Witness of C8: scenario B, Anna gets a record dated today, not 1 March 2020. -/
theorem insert_uses_current_date_witness :
    JobSignal engineerDraft ∧
      (modifyFamilyMember quietEnv annaDb (some engineerDraft)).2 = .ok modifyOk ∧
      (modifyFamilyMember quietEnv annaDb (some engineerDraft)).1.family_members_job =
        [⟨1, some "Engineer", none, 1000, some ⟨2024, 6, 15⟩⟩] :=
  ⟨engineerDraft_signal, rfl,
    ((insert_uses_current_date quietEnv annaDb engineerDraft engineerDraft_signal rfl).1
      rfl).trans (by decide)⟩

/-! ## At most one employment record per member -/

/-- The member update keeps the job table. -/
theorem jobsOf_updateMemberQuery (m : MemberDraft) (db : Db) (id : Nat) :
    jobsOf (updateMemberQuery m db) id = jobsOf db id := rfl

/-- The member update keeps the keys of the member rows. -/
theorem mem_updateMemberQuery {m : MemberDraft} {db : Db} {fm : FamilyMember}
    (h : fm ∈ (updateMemberQuery m db).family_members) :
    ∃ old ∈ db.family_members, old.id = fm.id := by
  simp only [updateMemberQuery, List.mem_map] at h
  obtain ⟨old, hold, rfl⟩ := h
  refine ⟨old, hold, ?_⟩
  by_cases hid : old.id = m.id <;> simp [hid]

/-- The job update keeps the number of records of every member. -/
theorem jobsOf_updateJobQuery_length (m : MemberDraft) (db : Db) (id : Nat) :
    (jobsOf (updateJobQuery m db) id).length = (jobsOf db id).length := by
  simp only [jobsOf, updateJobQuery, List.filter_map, List.length_map]
  congr 1
  apply List.filter_congr
  intro j _
  by_cases hm : j.family_member_id = m.id <;> simp [hm]

/-- The job insert adds one record to the member it names and none to the others. -/
theorem jobsOf_insertJobQuery_length (today : Date) (id : Nat) (jt em : Option String)
    (sal : Int) (db : Db) (id2 : Nat) :
    (jobsOf (insertJobQuery today id jt em sal db) id2).length =
      (jobsOf db id2).length + if id = id2 then 1 else 0 := by
  by_cases h : id = id2 <;> simp [jobsOf, insertJobQuery, List.filter_append, h]

/-- The job delete never adds a record. -/
theorem jobsOf_deleteJobQuery_length (id : Nat) (db : Db) (id2 : Nat) :
    (jobsOf (deleteJobQuery id db) id2).length ≤ (jobsOf db id2).length := by
  simp only [jobsOf, deleteJobQuery, List.filter_filter]
  apply List.Sublist.length_le
  apply List.monotone_filter_right
  intro j hj
  simp only [Bool.and_eq_true] at hj
  exact hj.1

/-- The member insert keeps the job table. -/
theorem jobsOf_insertMemberQuery (newId : Nat) (fn : Option String) (bd : Option Date)
    (em ph ro : Option String) (db : Db) (id : Nat) :
    jobsOf (insertMemberQuery newId fn bd em ph ro db) id = jobsOf db id := rfl

/-- A fresh key has no employment record. -/
theorem jobsOf_fresh {db : Db} {id : Nat} (h : FreshId db id) : jobsOf db id = [] := by
  unfold jobsOf
  rw [List.filter_eq_nil_iff]
  intro j hj
  simpa using h.2 j hj

/-- A successful `addFamilyMember` means the member insert did not reject, nor the job
insert when the draft has an employment signal. -/
theorem add_success_faults (env : Env) (db : Db) (m : MemberDraft)
    (h : (addFamilyMember env db (some m)).2 = .ok .messageBox) :
    env.fault 0 = false ∧ (JobSignal m → env.fault 1 = false) := by
  cases h0 : env.fault 0
  · refine ⟨rfl, fun hsig => ?_⟩
    have hs := (jobSignal_iff m).mpr hsig
    cases h1 : env.fault 1
    · rfl
    · exfalso
      revert h
      simp [addFamilyMember, addTry, h0, h1, hs]
  · exfalso
    revert h
    simp [addFamilyMember, addTry, h0]

/-- C7 as stated fails: a successful modifyFamilyMember for id 2, which no member bears,
turns Anna's database into `orphanDb`, where every member still has at most one
employment record and no member row bears id 2; addFamilyMember then succeeds with the
generated id 2 and the new member has two employment records. -/
theorem add_after_orphan_record_breaks_invariant :
    modifyFamilyMember quietEnv annaDb (some ghostDraft) = (orphanDb, .ok modifyOk) ∧
      OneJobPerMember orphanDb ∧
      (∀ fm ∈ orphanDb.family_members, fm.id ≠ quietEnv.newId) ∧
      (addFamilyMember quietEnv orphanDb (some engineerDraft)).2 = .ok .messageBox ∧
      ¬ OneJobPerMember (addFamilyMember quietEnv orphanDb (some engineerDraft)).1 := by
  refine ⟨?_, ?_, by decide, rfl, ?_⟩
  · have hpath := modify_insert_path quietEnv annaDb ghostDraft rfl rfl rfl
      (Or.inl ⟨"Driver", rfl, by decide⟩) rfl
    rw [hpath]
    congr 1
  · intro fm hfm
    simp only [orphanDb, List.mem_singleton] at hfm
    rw [hfm]
    decide
  · intro hinv
    have hnew : (⟨2, some "Anna", some ⟨1990, 1, 2⟩, some "a@x.org", none, some "boss"⟩ :
        FamilyMember) ∈
        (addFamilyMember quietEnv orphanDb (some engineerDraft)).1.family_members := by
      decide
    have hle := hinv _ hnew
    revert hle
    decide

/-- C7, amended. In a database where every family member has at most one employment
record, the same holds after a successful modifyFamilyMember, and after a successful
addFamilyMember whose generated id is borne by no member row and referred to by no
employment record. -/
theorem one_job_per_member_preserved (env : Env) (db : Db) (m : MemberDraft)
    (hinv : OneJobPerMember db) :
    ((modifyFamilyMember env db (some m)).2 = .ok modifyOk →
      OneJobPerMember (modifyFamilyMember env db (some m)).1) ∧
    (FreshId db env.newId → (addFamilyMember env db (some m)).2 = .ok .messageBox →
      OneJobPerMember (addFamilyMember env db (some m)).1) := by
  constructor
  · intro h
    obtain ⟨h0, h1, h2⟩ := modify_success_faults env db m h
    by_cases hsig : JobSignal m
    · by_cases hcount : 0 < jobCheckQuery m.id db
      · rw [modify_update_path env db m h0 h1 h2 hsig hcount]
        intro fm hfm
        obtain ⟨old, hold, hid⟩ := mem_updateMemberQuery hfm
        rw [jobsOf_updateJobQuery_length, jobsOf_updateMemberQuery, ← hid]
        exact hinv old hold
      · have hzero : jobCheckQuery m.id db = 0 := Nat.eq_zero_of_not_pos hcount
        rw [modify_insert_path env db m h0 h1 h2 hsig hzero]
        intro fm hfm
        obtain ⟨old, hold, hid⟩ := mem_updateMemberQuery hfm
        rw [jobsOf_insertJobQuery_length, jobsOf_updateMemberQuery, ← hid]
        have hold1 := hinv old hold
        by_cases hsame : m.id = old.id
        · have hz : (jobsOf db old.id).length = 0 := by rw [← hsame]; exact hzero
          simp [hsame, hz]
        · simpa [hsame] using hold1
    · rw [modify_delete_path env db m h0 h1 h2 hsig]
      intro fm hfm
      obtain ⟨old, hold, hid⟩ := mem_updateMemberQuery hfm
      refine le_trans (jobsOf_deleteJobQuery_length _ _ _) ?_
      rw [jobsOf_updateMemberQuery, ← hid]
      exact hinv old hold
  · intro hfresh h
    obtain ⟨h0, h1⟩ := add_success_faults env db m h
    by_cases hsig : JobSignal m
    · rw [add_signal_path env db m h0 (h1 hsig) hsig]
      intro fm hfm
      rw [jobsOf_insertJobQuery_length, jobsOf_insertMemberQuery]
      simp only [insertJobQuery, insertMemberQuery, List.mem_append, List.mem_singleton] at hfm
      rcases hfm with hfm | rfl
      · have hne : env.newId ≠ fm.id := fun hc => hfresh.1 fm hfm hc.symm
        simpa [hne] using hinv fm hfm
      · simp [jobsOf_fresh hfresh]
    · rw [add_plain_path env db m h0 hsig]
      intro fm hfm
      rw [jobsOf_insertMemberQuery]
      simp only [insertMemberQuery, List.mem_append, List.mem_singleton] at hfm
      rcases hfm with hfm | rfl
      · exact hinv fm hfm
      · simp [jobsOf_fresh hfresh]

/-- The one-record invariant holds in Anna's database. -/
theorem annaDb_oneJob : OneJobPerMember annaDb := by
  intro fm _
  simp [jobsOf, annaDb]

/-- Id 2 is fresh in Anna's database. -/
theorem annaDb_fresh : FreshId annaDb quietEnv.newId := by
  constructor
  · intro fm hfm
    simp only [annaDb, List.mem_singleton] at hfm
    rw [hfm]
    decide
  · intro j hj
    simp [annaDb] at hj

/-- Witness of the amended C7: the engineer draft, once as an update of Anna and once
as a new member under the fresh id 2. -/
theorem one_job_per_member_preserved_witness :
    OneJobPerMember annaDb ∧
      (modifyFamilyMember quietEnv annaDb (some engineerDraft)).2 = .ok modifyOk ∧
      OneJobPerMember (modifyFamilyMember quietEnv annaDb (some engineerDraft)).1 ∧
      FreshId annaDb quietEnv.newId ∧
      (addFamilyMember quietEnv annaDb (some engineerDraft)).2 = .ok .messageBox ∧
      OneJobPerMember (addFamilyMember quietEnv annaDb (some engineerDraft)).1 :=
  ⟨annaDb_oneJob, rfl,
    (one_job_per_member_preserved quietEnv annaDb engineerDraft annaDb_oneJob).1 rfl,
    annaDb_fresh, rfl,
    (one_job_per_member_preserved quietEnv annaDb engineerDraft annaDb_oneJob).2
      annaDb_fresh rfl⟩

/-! ## Errors of `addFamilyMember` -/

/-- C4, at the failing input. Called without a draft, addFamilyMember rejects with the
TypeError of the destructuring, which stands before its try block, and touches no table;
modifyFamilyMember, which reads the draft inside its try block, returns the failure
object for the same input. -/
theorem add_missing_draft_raises (env : Env) (db : Db) :
    addFamilyMember env db none = (db, .error .typeError) ∧
      modifyFamilyMember env db none = (db, .ok modifyFailed) :=
  ⟨rfl, rfl⟩

/-! ## No rollback in `modifyFamilyMember` -/

/-- With no fault among its three statements, `modifyFamilyMember` reports success. -/
theorem modify_noFault_result (env : Env) (db : Db) (m : MemberDraft)
    (h0 : env.fault 0 = false) (h1 : env.fault 1 = false) (h2 : env.fault 2 = false) :
    (modifyFamilyMember env db (some m)).2 = .ok modifyOk := by
  by_cases hsig : JobSignal m
  · by_cases hcount : 0 < jobCheckQuery m.id db
    · rw [modify_update_path env db m h0 h1 h2 hsig hcount]
    · rw [modify_insert_path env db m h0 h1 h2 hsig (Nat.eq_zero_of_not_pos hcount)]
  · rw [modify_delete_path env db m h0 h1 h2 hsig]

/-- A rejected member update ends `modifyFamilyMember` with the tables untouched. -/
theorem modify_fault_first (env : Env) (db : Db) (m : MemberDraft)
    (h0 : env.fault 0 = true) :
    modifyFamilyMember env db (some m) = (db, .ok modifyFailed) := by
  simp [modifyFamilyMember, modifyTry, h0]

/-- A rejected existence check or job statement ends `modifyFamilyMember` with the
member update stored and nothing else. -/
theorem modify_fault_later (env : Env) (db : Db) (m : MemberDraft)
    (h0 : env.fault 0 = false) (h12 : env.fault 1 = true ∨ env.fault 2 = true) :
    modifyFamilyMember env db (some m) = (updateMemberQuery m db, .ok modifyFailed) := by
  cases h1 : env.fault 1
  · have h2 : env.fault 2 = true := by
      rcases h12 with h | h
      · rw [h1] at h; cases h
      · exact h
    simp only [modifyFamilyMember, modifyTry, h0, h1, h2, Bool.false_eq_true, if_false, if_true]
    split_ifs <;> rfl
  · simp [modifyFamilyMember, modifyTry, h0, h1]

/-- C5 as stated fails: the existence check rejects after the member update has been
stored, modifyFamilyMember reports failure, and Anna's row already reads Anya. -/
theorem failed_update_keeps_member_change :
    (modifyFamilyMember secondQueryFails annaDb (some renameDraft)).2 = .ok modifyFailed ∧
      modifyFailed.success = false ∧
      (modifyFamilyMember secondQueryFails annaDb (some renameDraft)).1.family_members ≠
        annaDb.family_members :=
  ⟨rfl, rfl, by decide⟩

/-- C5, amended. When modifyFamilyMember reports failure, the employment records and the
expenses are as before the call; the member rows are as before the call when the draft is
missing or the member update itself rejected, and otherwise they are the rows the member
update wrote (the draft's full_name, birth_date, email, phone on the row of draft.id):
nothing is rolled back. -/
theorem failed_update_effects (env : Env) (db : Db) (member : Option MemberDraft)
    (h : (modifyFamilyMember env db member).2 = .ok modifyFailed) :
    (modifyFamilyMember env db member).1.family_members_job = db.family_members_job ∧
      (modifyFamilyMember env db member).1.expenses = db.expenses ∧
      (member = none ∨ env.fault 0 = true →
        (modifyFamilyMember env db member).1.family_members = db.family_members) ∧
      ∀ m, member = some m → env.fault 0 = false →
        (modifyFamilyMember env db member).1.family_members =
          db.family_members.map fun r =>
            if r.id = m.id then
              ⟨r.id, m.full_name, m.birth_date, storedText m.email, storedText m.phone, r.role⟩
            else r := by
  cases member with
  | none =>
    refine ⟨rfl, rfl, fun _ => rfl, ?_⟩
    intro m hm
    cases hm
  | some m =>
    cases h0 : env.fault 0
    · have h12 : env.fault 1 = true ∨ env.fault 2 = true := by
        by_contra hc
        rw [not_or, Bool.not_eq_true, Bool.not_eq_true] at hc
        rw [modify_noFault_result env db m h0 hc.1 hc.2] at h
        simp [modifyOk, modifyFailed] at h
      rw [modify_fault_later env db m h0 h12]
      refine ⟨rfl, rfl, ?_, ?_⟩
      · rintro (hc | hc) <;> cases hc
      · intro m2 hm _
        cases hm
        simp only [updateMemberQuery, orNull_eq]
    · rw [modify_fault_first env db m h0]
      refine ⟨rfl, rfl, fun _ => rfl, ?_⟩
      intro m2 _ hc
      cases hc

/-- Witness of the amended C5: the failing existence check leaves the job table empty. -/
theorem failed_update_effects_witness :
    (modifyFamilyMember secondQueryFails annaDb (some renameDraft)).2 = .ok modifyFailed ∧
      (modifyFamilyMember secondQueryFails annaDb (some renameDraft)).1.family_members_job =
        annaDb.family_members_job :=
  ⟨rfl, (failed_update_effects secondQueryFails annaDb (some renameDraft) rfl).1⟩

/-! ## Faults never reach the dispatcher -/

/-- With no fault in its two queries, `calculateBudgetRatio` compares the two amounts. -/
theorem calculate_noFault (env : Env) (db : Db) (familyMemberId : Option Nat)
    (h0 : env.fault 0 = false) (h1 : env.fault 1 = false) :
    calculateBudgetRatio env db familyMemberId =
      .ok (if orZero (incomeQuery familyMemberId db).head? >
          orZero (expenseQuery env.today familyMemberId db) then surplus else deficit) := by
  simp only [calculateBudgetRatio, calculateTry, h0, h1, Bool.false_eq_true, if_false]

/-- C6 as stated fails: called without a draft while no query rejects,
modifyFamilyMember returns success = false. -/
theorem missing_draft_fails_without_fault :
    NoFault quietEnv ∧
      (modifyFamilyMember quietEnv annaDb none).2 = .ok modifyFailed ∧
      modifyFailed.success = false :=
  ⟨fun _ => rfl, rfl, rfl⟩

/-- C6, amended. For every input and every pattern of rejected queries, none of
fetchFamilyMembers, modifyFamilyMember and calculateBudgetRatio rejects. A rejected query
makes fetchFamilyMembers return the empty sequence, modifyFamilyMember return success =
false with a message, and calculateBudgetRatio return the error label, which differs from
the surplus and the deficit label. When no query rejects, fetchFamilyMembers returns the
rows of its query and modifyFamilyMember, given a draft object, returns success = true. -/
theorem faults_become_benign_results (env : Env) (db : Db) (member : Option MemberDraft)
    (familyMemberId : Option Nat) :
    (fetchFamilyMembers env db = .ok (if env.fault 0 = true then [] else fetchQuery db)) ∧
    ((modifyFamilyMember env db member).2 = .ok modifyOk ∨
      (modifyFamilyMember env db member).2 = .ok modifyFailed) ∧
    (env.fault 0 = true ∨ env.fault 1 = true ∨ env.fault 2 = true →
      (modifyFamilyMember env db member).2 = .ok modifyFailed) ∧
    (∀ m, member = some m → env.fault 0 = false → env.fault 1 = false →
      env.fault 2 = false → (modifyFamilyMember env db member).2 = .ok modifyOk) ∧
    (modifyOk.success = true ∧ modifyFailed.success = false) ∧
    (∃ label, calculateBudgetRatio env db familyMemberId = .ok label) ∧
    (env.fault 0 = true ∨ env.fault 1 = true →
      calculateBudgetRatio env db familyMemberId = .ok calcError) ∧
    calcError ≠ surplus ∧ calcError ≠ deficit := by
  have hmodify : env.fault 0 = true ∨ env.fault 1 = true ∨ env.fault 2 = true →
      (modifyFamilyMember env db member).2 = .ok modifyFailed := by
    intro hf
    cases member with
    | none => rfl
    | some m =>
      cases h0 : env.fault 0
      · rw [modify_fault_later env db m h0 (by simpa [h0] using hf)]
      · rw [modify_fault_first env db m h0]
  refine ⟨?_, ?_, hmodify, ?_, ⟨rfl, rfl⟩, ?_, ?_, by decide, by decide⟩
  · cases h0 : env.fault 0 <;> simp [fetchFamilyMembers, fetchTry, h0]
  · cases member with
    | none => exact Or.inr rfl
    | some m =>
      cases h0 : env.fault 0
      · cases h1 : env.fault 1
        · cases h2 : env.fault 2
          · exact Or.inl (modify_noFault_result env db m h0 h1 h2)
          · exact Or.inr (hmodify (Or.inr (Or.inr h2)))
        · exact Or.inr (hmodify (Or.inr (Or.inl h1)))
      · exact Or.inr (hmodify (Or.inl h0))
  · intro m hm h0 h1 h2
    rw [hm]
    exact modify_noFault_result env db m h0 h1 h2
  · cases h0 : env.fault 0
    · cases h1 : env.fault 1
      · exact ⟨_, calculate_noFault env db familyMemberId h0 h1⟩
      · exact ⟨calcError, by simp [calculateBudgetRatio, calculateTry, h0, h1]⟩
    · exact ⟨calcError, by simp [calculateBudgetRatio, calculateTry, h0]⟩
  · intro hf
    cases h0 : env.fault 0
    · have h1 : env.fault 1 = true := by simpa [h0] using hf
      simp [calculateBudgetRatio, calculateTry, h0, h1]
    · simp [calculateBudgetRatio, calculateTry, h0]

/-! ## Budget ratio -/

theorem Date.le_iff (a b : Date) :
    a.le b = true ↔
      a.year < b.year ∨ (a.year = b.year ∧ (a.month < b.month ∨
        (a.month = b.month ∧ a.day ≤ b.day))) := by
  simp [Date.le]

theorem startDateDesc_total (a b : FamilyMemberJob) : startDateDesc a b ∨ startDateDesc b a := by
  unfold startDateDesc
  cases ha : a.start_date with
  | none => exact Or.inl trivial
  | some x =>
    cases hb : b.start_date with
    | none => exact Or.inr trivial
    | some y =>
      simp only [Date.le_iff]
      omega

theorem startDateDesc_trans (a b c : FamilyMemberJob) (hab : startDateDesc a b)
    (hbc : startDateDesc b c) : startDateDesc a c := by
  unfold startDateDesc at *
  cases ha : a.start_date with
  | none => trivial
  | some x =>
    cases hb : b.start_date with
    | none => simp [ha, hb] at hab
    | some y =>
      cases hc : c.start_date with
      | none => simp [hb, hc] at hbc
      | some z =>
        simp only [ha, hb, hc, Date.le_iff] at hab hbc ⊢
        omega

theorem startDateDesc_refl (a : FamilyMemberJob) : startDateDesc a a :=
  (startDateDesc_total a a).elim (fun h => h) (fun h => h)

instance : IsTotal FamilyMemberJob startDateDesc := ⟨startDateDesc_total⟩

instance : IsTrans FamilyMemberJob startDateDesc := ⟨startDateDesc_trans⟩

/-- The first row of `ORDER BY start_date DESC` over the member's records: none when the
member has no record, otherwise a most recent record. -/
theorem incomeQuery_head (db : Db) (id : Nat) :
    ((jobsOf db id = [] ∧ (incomeQuery (some id) db).head? = none) ∨
      ∃ j, IsLatestJob db id j ∧ (incomeQuery (some id) db).head? = some j.salary) := by
  have hfilter : (db.family_members_job.filter fun j =>
      decide (some j.family_member_id = some id)) = jobsOf db id := by
    unfold jobsOf
    apply List.filter_congr
    intro j _
    simp
  unfold incomeQuery
  rw [hfilter]
  have hsorted := List.sorted_insertionSort startDateDesc (jobsOf db id)
  have hperm := List.perm_insertionSort startDateDesc (jobsOf db id)
  cases hs : (jobsOf db id).insertionSort startDateDesc with
  | nil =>
    rw [hs] at hperm
    exact Or.inl ⟨hperm.symm.eq_nil, rfl⟩
  | cons a rest =>
    rw [hs] at hperm hsorted
    refine Or.inr ⟨a, ⟨hperm.subset (List.mem_cons_self a rest), ?_⟩, rfl⟩
    intro k hk
    have hk2 : k ∈ a :: rest := hperm.symm.subset hk
    rcases List.mem_cons.mp hk2 with rfl | hk3
    · exact startDateDesc_refl k
    · exact List.rel_of_sorted_cons hsorted k hk3

/-- The value of `total_expense || 0`: the sum of the qualifying amounts. -/
theorem expenseQuery_orZero (today : Date) (id : Nat) (db : Db) :
    orZero (expenseQuery today (some id) db) = expenseSince (dateTruncMonth today) id db := by
  have hfilter : (db.expenses.filter fun e =>
      decide (some e.family_member_id = some id) &&
        (dateTruncMonth today).le e.transaction_date) =
      db.expenses.filter fun e =>
        decide (e.family_member_id = id) && (dateTruncMonth today).le e.transaction_date := by
    apply List.filter_congr
    intro e _
    simp
  unfold expenseQuery expenseSince
  simp only [hfilter]
  split_ifs with hempty
  · rw [List.isEmpty_iff] at hempty
    rw [hempty]
    rfl
  · rw [orZero_eq]
    rfl

/-- C3 as stated fails: Anna earns 1000 and has no expense dated in June 2024, the
current month, so income exceeds the month's expenses; an expense of 1200 dated 3 July
2024 is counted all the same and calculateBudgetRatio returns the deficit label. -/
theorem later_month_expense_counts :
    NoFault quietEnv ∧ IsLatestJob julyExpenseDb 1 annaJob ∧
      annaJob.salary > expenseInMonth quietEnv.today 1 julyExpenseDb ∧
      calculateBudgetRatio quietEnv julyExpenseDb (some 1) = .ok deficit ∧
      deficit ≠ surplus := by
  refine ⟨fun _ => rfl, ⟨by decide, ?_⟩, by decide, ?_, by decide⟩
  · intro k hk
    simp only [jobsOf, julyExpenseDb, List.mem_filter, List.mem_singleton] at hk
    rw [hk.1]
    exact startDateDesc_refl annaJob
  · rw [calculate_noFault quietEnv julyExpenseDb (some 1) rfl rfl]
    congr 1

/-- C3, amended. When both queries succeed, calculateBudgetRatio returns the surplus
label if and only if income > expense, strictly, and the deficit label if and only if
income <= expense (so equal amounts give deficit), where income is the salary of a most
recent employment record of the member (0 when there is none) and expense is the sum of
the member's expense amounts dated on or after the first day of the current calendar
month (0 when there are none). -/
theorem budget_ratio_strict (env : Env) (db : Db) (id : Nat)
    (h0 : env.fault 0 = false) (h1 : env.fault 1 = false) :
    ∃ income : Int,
      ((jobsOf db id = [] ∧ income = 0) ∨ ∃ j, IsLatestJob db id j ∧ income = j.salary) ∧
      (calculateBudgetRatio env db (some id) = .ok surplus ↔
        income > expenseSince ⟨env.today.year, env.today.month, 1⟩ id db) ∧
      (calculateBudgetRatio env db (some id) = .ok deficit ↔
        income ≤ expenseSince ⟨env.today.year, env.today.month, 1⟩ id db) := by
  have hne : surplus ≠ deficit := by decide
  have hexp := expenseQuery_orZero env.today id db
  rw [calculate_noFault env db (some id) h0 h1, hexp]
  refine ⟨orZero (incomeQuery (some id) db).head?, ?_, ?_, ?_⟩
  · rcases incomeQuery_head db id with ⟨hnil, hhead⟩ | ⟨j, hj, hhead⟩
    · exact Or.inl ⟨hnil, by rw [hhead]; rfl⟩
    · exact Or.inr ⟨j, hj, by rw [hhead, orZero_eq]; rfl⟩
  · show _ ↔ _ > expenseSince (dateTruncMonth env.today) id db
    split_ifs with hgt
    · simp [hgt]
    · simp only [Except.ok.injEq]
      exact ⟨fun h => absurd h.symm hne, fun h => absurd h hgt⟩
  · show _ ↔ _ ≤ expenseSince (dateTruncMonth env.today) id db
    split_ifs with hgt
    · simp only [Except.ok.injEq]
      exact ⟨fun h => absurd h hne, fun h => absurd hgt (not_lt.mpr h)⟩
    · simp [not_lt.mp hgt]

/-- Witness of the amended C3: scenario D, salary 1000 against 1200 spent on 5 June 2024
gives the deficit label. -/
theorem budget_ratio_strict_witness :
    quietEnv.fault 0 = false ∧ quietEnv.fault 1 = false ∧
      ∃ income : Int,
        ((jobsOf juneExpenseDb 1 = [] ∧ income = 0) ∨
          ∃ j, IsLatestJob juneExpenseDb 1 j ∧ income = j.salary) ∧
        (calculateBudgetRatio quietEnv juneExpenseDb (some 1) = .ok surplus ↔
          income > expenseSince ⟨2024, 6, 1⟩ 1 juneExpenseDb) ∧
        (calculateBudgetRatio quietEnv juneExpenseDb (some 1) = .ok deficit ↔
          income ≤ expenseSince ⟨2024, 6, 1⟩ 1 juneExpenseDb) :=
  ⟨rfl, rfl, budget_ratio_strict quietEnv juneExpenseDb 1 rfl rfl⟩

end FamilyBudget
